import Mathlib

/-!
Verification of `mypy/semanal_pass1.py` (`SemanticAnalyzerPreAnalysis`),
the block/import reachability pre-analysis pass.

The pass is embedded shallowly: the Python visitor's in-place mutations of
the syntax tree (import top-level tags, block unreachable tags, truncation
of the top-level statement list) and of the visitor object (scope flag,
skipped-line set, partial-stub-package flag) become explicit state passing.

Code of the repository that is not part of the provided sources
(`mypy/nodes.py`, `mypy/options.py`, `mypy/reachability.py`,
`mypy/traverser.py`) is modelled from the spec; each such definition says so
in its doc comment.
-/
namespace Mypy

/-- Modelled from the spec: the configuration record (`mypy.options.Options`
is not among the provided sources).  Only the target-platform identifier is
consulted by the guard sublanguage modelled here. -/
structure Options where
  platform : String
deriving DecidableEq

/-- Modelled from the spec: the restricted guard-expression sublanguage that
the Reachability Oracle can evaluate.  Every expression carries a numeric
identifier, used only by the ghost trace of visited expressions.
`platformEq id p` stands for a comparison of the configured platform with
the literal `p` (for example `sys.platform == "win32"`); `boolLit` is a
boolean literal; `otherExpr` is any guard whose value the Oracle cannot
determine statically. -/
inductive Expr where
  | platformEq (id : Nat) (plat : String) : Expr
  | boolLit (id : Nat) (b : Bool) : Expr
  | otherExpr (id : Nat) : Expr
deriving DecidableEq

/-- The identifier of an expression (used by the ghost visit trace). -/
def exprId : Expr → Nat
  | .platformEq i _ => i
  | .boolLit i _ => i
  | .otherExpr i => i

/-- Modelled from the spec: `infer_condition_value` of `mypy.reachability`
(not among the provided sources).  Returns `some true` / `some false` when
the guard is statically decidable from the configuration and `none` when
reachability is undetermined. -/
def inferCondValue (opts : Options) : Expr → Option Bool
  | .platformEq _ p => some (opts.platform == p)
  | .boolLit _ b => some b
  | .otherExpr _ => none

mutual
/-- Statement nodes of the syntax tree, one constructor per variant handled
by `SemanticAnalyzerPreAnalysis`.  Modelled from the spec where the node
classes (`mypy/nodes.py`) are not among the provided sources: every node
carries a start line and an optional end line; import-like statements carry
the mutable `is_top_level` tag (parse-time default `false`); `ifStmt` has
parallel lists of guard expressions and arm body blocks plus an optional
else block; `matchStmt` has optional per-case guards and case body blocks. -/
inductive Stmt where
  | assertStmt (line : Nat) (endLine : Option Nat) (cond : Expr) : Stmt
  | assignmentStmt (line : Nat) (endLine : Option Nat) : Stmt
  | expressionStmt (line : Nat) (endLine : Option Nat) : Stmt
  | returnStmt (line : Nat) (endLine : Option Nat) : Stmt
  | importStmt (line : Nat) (endLine : Option Nat) (is_top_level : Bool) : Stmt
  | importFrom (line : Nat) (endLine : Option Nat) (is_top_level : Bool) : Stmt
  | importAll (line : Nat) (endLine : Option Nat) (is_top_level : Bool) : Stmt
  | ifStmt (line : Nat) (endLine : Option Nat) (exprs : List Expr)
      (body : List Block) (elseBody : Option Block) : Stmt
  | forStmt (line : Nat) (endLine : Option Nat) (body : Block)
      (elseBody : Option Block) : Stmt
  | matchStmt (line : Nat) (endLine : Option Nat) (guards : List (Option Expr))
      (bodies : List Block) : Stmt
  | funcDef (line : Nat) (endLine : Option Nat) (name : String) (body : Block) : Stmt
  | classDef (line : Nat) (endLine : Option Nat) (name : String) (body : Block) : Stmt

/-- A block: line span, the mutable `is_unreachable` tag and the statement
sequence. -/
inductive Block where
  | mk (line : Nat) (endLine : Option Nat) (is_unreachable : Bool)
      (body : List Stmt) : Block
end

/-- Start line of a statement. -/
def stmtLine : Stmt → Nat
  | .assertStmt l _ _ => l
  | .assignmentStmt l _ => l
  | .expressionStmt l _ => l
  | .returnStmt l _ => l
  | .importStmt l _ _ => l
  | .importFrom l _ _ => l
  | .importAll l _ _ => l
  | .ifStmt l _ _ _ _ => l
  | .forStmt l _ _ _ => l
  | .matchStmt l _ _ _ => l
  | .funcDef l _ _ _ => l
  | .classDef l _ _ _ => l

/-- End line of a statement (`none` on older source-position schemes). -/
def stmtEndLine : Stmt → Option Nat
  | .assertStmt _ e _ => e
  | .assignmentStmt _ e => e
  | .expressionStmt _ e => e
  | .returnStmt _ e => e
  | .importStmt _ e _ => e
  | .importFrom _ e _ => e
  | .importAll _ e _ => e
  | .ifStmt _ e _ _ _ => e
  | .forStmt _ e _ _ => e
  | .matchStmt _ e _ _ => e
  | .funcDef _ e _ _ => e
  | .classDef _ e _ _ => e

/-- The `is_top_level` tag of an import-like statement (`false` for every
other statement kind). -/
def topLevelTag : Stmt → Bool
  | .importStmt _ _ t => t
  | .importFrom _ _ t => t
  | .importAll _ _ t => t
  | _ => false

def Block.line : Block → Nat
  | .mk l _ _ _ => l

def Block.endLine : Block → Option Nat
  | .mk _ e _ _ => e

def Block.is_unreachable : Block → Bool
  | .mk _ _ u _ => u

def Block.body : Block → List Stmt
  | .mk _ _ _ b => b

/-- The arm body blocks of an `ifStmt` (empty for other statements). -/
def armBodies : Stmt → List Block
  | .ifStmt _ _ _ bs _ => bs
  | _ => []

/-- The else block of an `ifStmt`. -/
def elseOf : Stmt → Option Block
  | .ifStmt _ _ _ _ e => e
  | _ => none

/-- Modelled from the spec: `assert_will_always_fail` of `mypy.reachability`
(not among the provided sources) — the failing-assertion predicate: the
assert condition is statically decidable and false. -/
def assert_will_always_fail (opts : Options) (cond : Expr) : Bool :=
  inferCondValue opts cond == some false

/-- The truncation trigger `isinstance(defn, AssertStmt) and
assert_will_always_fail(defn, options)`,
the trigger condition of the truncation rule in `visit_file`. -/
def isFailingAssert (opts : Options) : Stmt → Bool
  | .assertStmt _ _ cond => assert_will_always_fail opts cond
  | _ => false

/-- Modelled from the spec: the per-arm output of
`infer_reachability_of_if_statement` (not among the provided sources).
Walking the arm guards in order: a statically false guard marks that arm's
body unreachable; the first statically true guard marks every later arm's
body and the else block unreachable and stops; an undetermined guard marks
nothing.  Returns the per-arm marks together with the else mark. -/
def inferIfTags (opts : Options) : List Expr → List Bool × Bool
  | [] => ([], false)
  | e :: es =>
    match inferCondValue opts e with
    | some false =>
      let r := inferIfTags opts es
      (true :: r.1, r.2)
    | some true => (false :: es.map (fun _ => true), true)
    | none =>
      let r := inferIfTags opts es
      (false :: r.1, r.2)

/-- Modelled from the spec: the per-case output of
`infer_reachability_of_match_statement` (not among the provided sources):
a case whose guard is statically false has its body marked unreachable. -/
def inferMatchTags (opts : Options) (guards : List (Option Expr)) : List Bool :=
  guards.map (fun g =>
    match g with
    | some e => inferCondValue opts e == some false
    | none => false)

/-- The per-traversal state of the visitor: the module-scope flag
`is_global_scope`, the skipped-line set, the module's
`is_partial_stub_package` flag (a field of the module node, threaded here
because the pass may set it), and a ghost trace of the identifiers of the
expressions the traverser dispatched into (the Python traverser visits
expressions but this pass attaches no behavior to them, so a ghost trace is
the only observable of that dispatch). -/
structure VisState where
  is_global_scope : Bool
  skipped_lines : Finset ℕ
  is_partial_stub_package : Bool
  visitedExprs : List Nat
deriving DecidableEq

/-- The per-module read-only context: the configuration plus the module
fields `is_stub` and `is_package_init_file()` read by `visit_func_def`. -/
structure Ctx where
  options : Options
  is_stub : Bool
  is_package_init_file : Bool
deriving DecidableEq

/-- Dispatching the traverser into an expression: records its identifier in
the ghost trace.  (This pass overrides no expression visits, so visiting an
expression has no other effect.) -/
def visitExpr (st : VisState) (e : Expr) : VisState :=
  { st with visitedExprs := exprId e :: st.visitedExprs }

/-- Visit a list of expressions in order (`for expr in s.expr: expr.accept(self)`). -/
def visitExprs (st : VisState) (es : List Expr) : VisState :=
  es.foldl visitExpr st

/-- Visit the present guards of a match statement in order. -/
def visitOptExprs (st : VisState) (gs : List (Option Expr)) : VisState :=
  gs.foldl (fun s g => match g with | some e => visitExpr s e | none => s) st

mutual
/-- One step of the visitor's dynamic dispatch (`defn.accept(self)`), an
exhaustive match over the statement variants with the overrides of
`SemanticAnalyzerPreAnalysis`:
* assert: no override; the default traverser visits the condition;
* assignment/expression/return statements: `pass` (lines 148-155);
* imports: `node.is_top_level = self.is_global_scope` (lines 108-118);
* `visit_if_stmt` (lines 120-127): the Oracle tags the arm bodies and the
  else block, then every guard expression is visited, then every body;
* `visit_for_stmt` (lines 157-160): body, then else body;
* `visit_match_stmt` (lines 137-143): Oracle, guards, bodies;
* `visit_func_def` (lines 85-100): save/clear/restore the scope flag around
  the body, then the stub-package check;
* `visit_class_def` (lines 102-106): save/clear/restore only. -/
def visit_stmt (ctx : Ctx) (st : VisState) : Stmt → Stmt × VisState
  | .assertStmt l el cond => (.assertStmt l el cond, visitExpr st cond)
  | .assignmentStmt l el => (.assignmentStmt l el, st)
  | .expressionStmt l el => (.expressionStmt l el, st)
  | .returnStmt l el => (.returnStmt l el, st)
  | .importStmt l el _ => (.importStmt l el st.is_global_scope, st)
  | .importFrom l el _ => (.importFrom l el st.is_global_scope, st)
  | .importAll l el _ => (.importAll l el st.is_global_scope, st)
  | .ifStmt l el exprs bodies elseB =>
    let tags := inferIfTags ctx.options exprs
    let st1 := visitExprs st exprs
    let p := visit_blocks_marked ctx st1 tags.1 bodies
    (match elseB with
     | some eb =>
       let q := visit_block_mark ctx tags.2 p.2 eb
       (.ifStmt l el exprs p.1 (some q.1), q.2)
     | none => (.ifStmt l el exprs p.1 none, p.2))
  | .forStmt l el body elseB =>
    let p := visit_block_mark ctx false st body
    (match elseB with
     | some eb =>
       let q := visit_block_mark ctx false p.2 eb
       (.forStmt l el p.1 (some q.1), q.2)
     | none => (.forStmt l el p.1 none, p.2))
  | .matchStmt l el guards bodies =>
    let tags := inferMatchTags ctx.options guards
    let st1 := visitOptExprs st guards
    let p := visit_blocks_marked ctx st1 tags bodies
    (.matchStmt l el guards p.1, p.2)
  | .funcDef l el name body =>
    let old := st.is_global_scope
    let p := visit_block_mark ctx false { st with is_global_scope := false } body
    let st2 := { p.2 with is_global_scope := old }
    let st3 :=
      if st2.is_global_scope && ctx.is_stub && (name == "__getattr__")
          && ctx.is_package_init_file then
        { st2 with is_partial_stub_package := true }
      else st2
    (.funcDef l el name p.1, st3)
  | .classDef l el name body =>
    let old := st.is_global_scope
    let p := visit_block_mark ctx false { st with is_global_scope := false } body
    (.classDef l el name p.1, { p.2 with is_global_scope := old })

/-- The source's `visit_block` (lines 129-135), with the write of
`mark_block_unreachable` (applied by the Oracle before the block is
visited) folded into the extra `mark` argument: a block whose tag is set —
whether it arrived set or the Oracle set it just now — records its line
span (only when an end line is available) and is not descended into;
otherwise each statement of the block is visited in order. -/
def visit_block_mark (ctx : Ctx) (mark : Bool) (st : VisState) :
    Block → Block × VisState
  | .mk l el unreach body =>
    if unreach || mark then
      (match el with
       | some e =>
         (.mk l el true body,
          { st with skipped_lines := st.skipped_lines ∪ Finset.Ico l (e + 1) })
       | none => (.mk l el true body, st))
    else
      let p := visit_stmts ctx st body
      (.mk l el false p.1, p.2)

/-- Visit a list of statements in order (the default block descent). -/
def visit_stmts (ctx : Ctx) (st : VisState) : List Stmt → List Stmt × VisState
  | [] => ([], st)
  | s :: ss =>
    let p := visit_stmt ctx st s
    let q := visit_stmts ctx p.2 ss
    (p.1 :: q.1, q.2)

/-- Visit the arm bodies of an if/match statement in order, each with its
Oracle mark (`for node in s.body: node.accept(self)` after the Oracle call). -/
def visit_blocks_marked (ctx : Ctx) (st : VisState) :
    List Bool → List Block → List Block × VisState
  | _, [] => ([], st)
  | marks, b :: bs =>
    let p := visit_block_mark ctx (marks.headD false) st b
    let q := visit_blocks_marked ctx p.2 marks.tail bs
    (p.1 :: q.1, q.2)
end

/-- The source's `visit_block` as called on an already-tagged block (no fresh Oracle
mark), the exact signature of the source's `visit_block`. -/
def visit_block (ctx : Ctx) (st : VisState) (b : Block) : Block × VisState :=
  visit_block_mark ctx false st b

/-- The body of the `for i, defn in enumerate(file.defs)` loop of
`visit_file` (lines 70-82): visit each top-level statement; after visiting,
if it is an assert that will always fail, record the span from the next
statement's start line to the last statement's end line (only when that end
line is available), drop every later statement (`del file.defs[i + 1:]`)
and stop (`break`). -/
def processDefs (ctx : Ctx) (st : VisState) : List Stmt → List Stmt × VisState
  | [] => ([], st)
  | d :: rest =>
    let p := visit_stmt ctx st d
    if isFailingAssert ctx.options p.1 then
      match rest with
      | [] => ([p.1], p.2)
      | next :: more =>
        match stmtEndLine (List.getLastD more next) with
        | some e =>
          ([p.1],
           { p.2 with
             skipped_lines :=
               p.2.skipped_lines ∪ Finset.Ico (stmtLine next) (e + 1) })
        | none => ([p.1], p.2)
    else
      let q := processDefs ctx p.2 rest
      (p.1 :: q.1, q.2)

/-- The module node.  Modelled from the spec where `MypyFile`
(`mypy/nodes.py`) is not among the provided sources: the mutable top-level
statement sequence, the module-shape fields read by the pass (`is_stub`,
`is_package_init_file()` as a boolean field), and the two outputs the pass
writes (`is_partial_stub_package`, `skipped_lines`). -/
structure MypyFile where
  defs : List Stmt
  is_stub : Bool
  is_package_init_file : Bool
  is_partial_stub_package : Bool
  skipped_lines : Finset ℕ

/-- The visitor object's instance fields assigned by `visit_file`
(lines 62-68).  (`cur_mod_node` is the module itself and is omitted;
`options` is kept whole and `platform` separately, as in the source.) -/
structure Visitor where
  platform : String
  cur_mod_id : String
  options : Options
  is_global_scope : Bool
  skipped_lines : Finset ℕ

/-- The entry point `visit_file` (lines 62-83): reinitialize the per-module visitor state,
run the truncating top-level loop, then write the skipped-line set (and the
possibly-set partial-stub-package flag) back to the module. -/
def visit_file (self : Visitor) (file : MypyFile) (fnam : String)
    (mod_id : String) (options : Options) : Visitor × MypyFile :=
  let ctx : Ctx :=
    { options := options, is_stub := file.is_stub,
      is_package_init_file := file.is_package_init_file }
  let st0 : VisState :=
    { is_global_scope := true, skipped_lines := ∅,
      is_partial_stub_package := file.is_partial_stub_package,
      visitedExprs := [] }
  let p := processDefs ctx st0 file.defs
  ({ platform := options.platform, cur_mod_id := mod_id, options := options,
     is_global_scope := p.2.is_global_scope,
     skipped_lines := p.2.skipped_lines },
   { file with
     defs := p.1,
     skipped_lines := p.2.skipped_lines,
     is_partial_stub_package := p.2.is_partial_stub_package })

mutual

/-- True precisely when every import-like node in the statement's tree carries a
`false` top-level tag (the parse-time state of a freshly parsed module). -/
def stmtNoTopImports : Stmt → Bool
  | .importStmt _ _ t => !t
  | .importFrom _ _ t => !t
  | .importAll _ _ t => !t
  | .ifStmt _ _ _ bodies elseB =>
    blocksNoTopImports bodies
      && (match elseB with | some b => blockNoTopImports b | none => true)
  | .forStmt _ _ body elseB =>
    blockNoTopImports body
      && (match elseB with | some b => blockNoTopImports b | none => true)
  | .matchStmt _ _ _ bodies => blocksNoTopImports bodies
  | .funcDef _ _ _ body => blockNoTopImports body
  | .classDef _ _ _ body => blockNoTopImports body
  | _ => true

def blockNoTopImports : Block → Bool
  | .mk _ _ _ body => stmtsNoTopImports body

def stmtsNoTopImports : List Stmt → Bool
  | [] => true
  | s :: ss => stmtNoTopImports s && stmtsNoTopImports ss

def blocksNoTopImports : List Block → Bool
  | [] => true
  | b :: bs => blockNoTopImports b && blocksNoTopImports bs

end

mutual

/-- The set of lines the pass records as skipped while visiting a statement
(a ghost recomputation that mirrors the traversal: spans come exactly from
blocks that are visited with the unreachable tag set, either already set or
set by the Oracle at the enclosing if/match). -/
def stmtSpans (opts : Options) : Stmt → Finset ℕ
  | .ifStmt _ _ exprs bodies elseB =>
    blocksSpansM opts (inferIfTags opts exprs).1 bodies
      ∪ (match elseB with
         | some eb => blockSpansM opts (inferIfTags opts exprs).2 eb
         | none => ∅)
  | .forStmt _ _ body elseB =>
    blockSpansM opts false body
      ∪ (match elseB with
         | some eb => blockSpansM opts false eb
         | none => ∅)
  | .matchStmt _ _ guards bodies => blocksSpansM opts (inferMatchTags opts guards) bodies
  | .funcDef _ _ _ body => blockSpansM opts false body
  | .classDef _ _ _ body => blockSpansM opts false body
  | _ => ∅

/-- Lines recorded while visiting a block that the Oracle marks with `mark`. -/
def blockSpansM (opts : Options) (mark : Bool) : Block → Finset ℕ
  | .mk l el unreach body =>
    if unreach || mark then
      (match el with
       | some e => Finset.Ico l (e + 1)
       | none => ∅)
    else stmtsSpans opts body

def stmtsSpans (opts : Options) : List Stmt → Finset ℕ
  | [] => ∅
  | s :: ss => stmtSpans opts s ∪ stmtsSpans opts ss

def blocksSpansM (opts : Options) : List Bool → List Block → Finset ℕ
  | _, [] => ∅
  | marks, b :: bs =>
    blockSpansM opts (marks.headD false) b ∪ blocksSpansM opts marks.tail bs

end

/-- The lines the top-level loop of `visit_file` records: the lines recorded
while visiting each processed top-level statement, plus — at the first
always-failing assert that is not the last statement — the truncation span
from the next statement's start line to the last statement's end line. -/
def defsSpans (opts : Options) : List Stmt → Finset ℕ
  | [] => ∅
  | d :: rest =>
    stmtSpans opts d ∪
      (if isFailingAssert opts d then
        (match rest with
         | [] => ∅
         | next :: more =>
           match stmtEndLine (List.getLastD more next) with
           | some e => Finset.Ico (stmtLine next) (e + 1)
           | none => ∅)
       else defsSpans opts rest)

/-- The line span of a block, when its end line is available. -/
def blockSpan (b : Block) : Finset ℕ :=
  match b.endLine with
  | some e => Finset.Ico b.line (e + 1)
  | none => ∅

/-- Some fixed context and state used by the closed witness theorems. -/
def ctx0 : Ctx :=
  { options := { platform := "linux" }, is_stub := true, is_package_init_file := true }

def st0 : VisState :=
  { is_global_scope := true, skipped_lines := ∅, is_partial_stub_package := false,
    visitedExprs := [] }

/-- The concrete C3 scenario: target platform `"linux"`, a top-level
`if sys.platform == "win32":` whose body holds a single import. -/
def winGuard : Expr := .platformEq 1 "win32"

def xyzImport : Stmt := .importStmt 3 (some 3) false

def winBlock : Block := .mk 3 (some 3) false [xyzImport]

def demoIf : Stmt := .ifStmt 2 (some 3) [winGuard] [winBlock] none

def demoFile : MypyFile :=
  { defs := [demoIf], is_stub := false, is_package_init_file := false,
    is_partial_stub_package := false, skipped_lines := ∅ }

def demoVisitor : Visitor :=
  { platform := "", cur_mod_id := "", options := { platform := "" },
    is_global_scope := true, skipped_lines := ∅ }

def linuxOptions : Options := { platform := "linux" }

def demoResult : MypyFile := (visit_file demoVisitor demoFile "m.py" "m" linuxOptions).2

theorem visitExprs_scope (es : List Expr) : ∀ st : VisState,
    (visitExprs st es).is_global_scope = st.is_global_scope := by
  induction es with
  | nil => intro st; rfl
  | cons e es ih => intro st; exact ih (visitExpr st e)

theorem visitExprs_skipped (es : List Expr) : ∀ st : VisState,
    (visitExprs st es).skipped_lines = st.skipped_lines := by
  induction es with
  | nil => intro st; rfl
  | cons e es ih => intro st; exact ih (visitExpr st e)

theorem visitExprs_stub (es : List Expr) : ∀ st : VisState,
    (visitExprs st es).is_partial_stub_package = st.is_partial_stub_package := by
  induction es with
  | nil => intro st; rfl
  | cons e es ih => intro st; exact ih (visitExpr st e)

theorem visitOptExprs_scope (gs : List (Option Expr)) : ∀ st : VisState,
    (visitOptExprs st gs).is_global_scope = st.is_global_scope := by
  induction gs with
  | nil => intro st; rfl
  | cons g gs ih => intro st; cases g <;> exact ih _

theorem visitOptExprs_skipped (gs : List (Option Expr)) : ∀ st : VisState,
    (visitOptExprs st gs).skipped_lines = st.skipped_lines := by
  induction gs with
  | nil => intro st; rfl
  | cons g gs ih => intro st; cases g <;> exact ih _

theorem visitOptExprs_stub (gs : List (Option Expr)) : ∀ st : VisState,
    (visitOptExprs st gs).is_partial_stub_package = st.is_partial_stub_package := by
  induction gs with
  | nil => intro st; rfl
  | cons g gs ih => intro st; cases g <;> exact ih _

mutual

theorem visit_stmt_scope (ctx : Ctx) : ∀ (st : VisState) (s : Stmt),
    ((visit_stmt ctx st s).2).is_global_scope = st.is_global_scope
  | st, .assertStmt l el cond => rfl
  | st, .assignmentStmt l el => rfl
  | st, .expressionStmt l el => rfl
  | st, .returnStmt l el => rfl
  | st, .importStmt l el t => rfl
  | st, .importFrom l el t => rfl
  | st, .importAll l el t => rfl
  | st, .ifStmt l el exprs bodies elseB => by
    cases elseB with
    | none =>
      show ((visit_blocks_marked ctx (visitExprs st exprs)
          (inferIfTags ctx.options exprs).1 bodies).2).is_global_scope = _
      rw [visit_blocks_marked_scope ctx _ (inferIfTags ctx.options exprs).1 bodies,
        visitExprs_scope]
    | some eb =>
      show ((visit_block_mark ctx (inferIfTags ctx.options exprs).2
          (visit_blocks_marked ctx (visitExprs st exprs)
            (inferIfTags ctx.options exprs).1 bodies).2 eb).2).is_global_scope = _
      rw [visit_block_mark_scope ctx _ _ eb,
        visit_blocks_marked_scope ctx _ (inferIfTags ctx.options exprs).1 bodies,
        visitExprs_scope]
  | st, .forStmt l el body elseB => by
    cases elseB with
    | none =>
      show ((visit_block_mark ctx false st body).2).is_global_scope = _
      rw [visit_block_mark_scope ctx false st body]
    | some eb =>
      show ((visit_block_mark ctx false
          (visit_block_mark ctx false st body).2 eb).2).is_global_scope = _
      rw [visit_block_mark_scope ctx false _ eb, visit_block_mark_scope ctx false st body]
  | st, .matchStmt l el guards bodies => by
    show ((visit_blocks_marked ctx (visitOptExprs st guards)
        (inferMatchTags ctx.options guards) bodies).2).is_global_scope = _
    rw [visit_blocks_marked_scope ctx _ (inferMatchTags ctx.options guards) bodies,
      visitOptExprs_scope]
  | st, .funcDef l el name body => by
    show (if st.is_global_scope && ctx.is_stub && (name == "__getattr__")
          && ctx.is_package_init_file then _ else _ : VisState).is_global_scope = _
    split <;> rfl
  | st, .classDef l el name body => rfl

theorem visit_block_mark_scope (ctx : Ctx) : ∀ (mark : Bool) (st : VisState) (b : Block),
    ((visit_block_mark ctx mark st b).2).is_global_scope = st.is_global_scope
  | mark, st, .mk l el unreach body => by
    show ((if unreach || mark then _ else _ : Block × VisState).2).is_global_scope = _
    split
    · cases el <;> rfl
    · show ((visit_stmts ctx st body).2).is_global_scope = _
      rw [visit_stmts_scope ctx st body]

theorem visit_stmts_scope (ctx : Ctx) : ∀ (st : VisState) (ss : List Stmt),
    ((visit_stmts ctx st ss).2).is_global_scope = st.is_global_scope
  | st, [] => rfl
  | st, s :: ss => by
    show ((visit_stmts ctx (visit_stmt ctx st s).2 ss).2).is_global_scope = _
    rw [visit_stmts_scope ctx _ ss, visit_stmt_scope ctx st s]

theorem visit_blocks_marked_scope (ctx : Ctx) :
    ∀ (st : VisState) (marks : List Bool) (bs : List Block),
    ((visit_blocks_marked ctx st marks bs).2).is_global_scope = st.is_global_scope
  | st, marks, [] => rfl
  | st, marks, b :: bs => by
    show ((visit_blocks_marked ctx (visit_block_mark ctx (marks.headD false) st b).2
        marks.tail bs).2).is_global_scope = _
    rw [visit_blocks_marked_scope ctx _ marks.tail bs,
      visit_block_mark_scope ctx (marks.headD false) st b]

end

theorem visitExprs_trace_mono (es : List Expr) : ∀ (st : VisState) (i : Nat),
    i ∈ st.visitedExprs → i ∈ (visitExprs st es).visitedExprs := by
  induction es with
  | nil => intro st i h; exact h
  | cons e es ih =>
    intro st i h
    exact ih (visitExpr st e) i (List.mem_cons_of_mem _ h)

theorem visitExprs_trace_mem (es : List Expr) : ∀ (st : VisState) (e : Expr),
    e ∈ es → exprId e ∈ (visitExprs st es).visitedExprs := by
  induction es with
  | nil => intro st e h; cases h
  | cons a es ih =>
    intro st e h
    cases h with
    | head =>
      exact visitExprs_trace_mono es (visitExpr st a) _ (List.mem_cons_self _ _)
    | tail _ h => exact ih (visitExpr st a) e h

theorem visitOptExprs_trace_mono (gs : List (Option Expr)) : ∀ (st : VisState) (i : Nat),
    i ∈ st.visitedExprs → i ∈ (visitOptExprs st gs).visitedExprs := by
  induction gs with
  | nil => intro st i h; exact h
  | cons g gs ih =>
    intro st i h
    cases g with
    | none => exact ih _ i h
    | some e => exact ih _ i (List.mem_cons_of_mem _ h)

mutual

theorem visit_stmt_stub_pres (ctx : Ctx) : ∀ (st : VisState) (s : Stmt),
    st.is_global_scope = false ∨ ctx.is_stub = false ∨ ctx.is_package_init_file = false →
    ((visit_stmt ctx st s).2).is_partial_stub_package = st.is_partial_stub_package
  | st, .assertStmt l el cond, _ => rfl
  | st, .assignmentStmt l el, _ => rfl
  | st, .expressionStmt l el, _ => rfl
  | st, .returnStmt l el, _ => rfl
  | st, .importStmt l el t, _ => rfl
  | st, .importFrom l el t, _ => rfl
  | st, .importAll l el t, _ => rfl
  | st, .ifStmt l el exprs bodies elseB, h => by
    have h1 : (visitExprs st exprs).is_global_scope = false ∨ ctx.is_stub = false
        ∨ ctx.is_package_init_file = false := by
      rw [visitExprs_scope]; exact h
    cases elseB with
    | none =>
      show ((visit_blocks_marked ctx (visitExprs st exprs)
          (inferIfTags ctx.options exprs).1 bodies).2).is_partial_stub_package = _
      rw [visit_blocks_marked_stub_pres ctx _ (inferIfTags ctx.options exprs).1 bodies h1,
        visitExprs_stub]
    | some eb =>
      have h2 : ((visit_blocks_marked ctx (visitExprs st exprs)
          (inferIfTags ctx.options exprs).1 bodies).2).is_global_scope = false
          ∨ ctx.is_stub = false ∨ ctx.is_package_init_file = false := by
        rw [visit_blocks_marked_scope, visitExprs_scope]; exact h
      show ((visit_block_mark ctx (inferIfTags ctx.options exprs).2
          (visit_blocks_marked ctx (visitExprs st exprs)
            (inferIfTags ctx.options exprs).1 bodies).2 eb).2).is_partial_stub_package = _
      rw [visit_block_mark_stub_pres ctx _ _ eb h2,
        visit_blocks_marked_stub_pres ctx _ (inferIfTags ctx.options exprs).1 bodies h1,
        visitExprs_stub]
  | st, .forStmt l el body elseB, h => by
    cases elseB with
    | none =>
      show ((visit_block_mark ctx false st body).2).is_partial_stub_package = _
      rw [visit_block_mark_stub_pres ctx false st body h]
    | some eb =>
      have h2 : ((visit_block_mark ctx false st body).2).is_global_scope = false
          ∨ ctx.is_stub = false ∨ ctx.is_package_init_file = false := by
        rw [visit_block_mark_scope]; exact h
      show ((visit_block_mark ctx false
          (visit_block_mark ctx false st body).2 eb).2).is_partial_stub_package = _
      rw [visit_block_mark_stub_pres ctx false _ eb h2,
        visit_block_mark_stub_pres ctx false st body h]
  | st, .matchStmt l el guards bodies, h => by
    have h1 : (visitOptExprs st guards).is_global_scope = false ∨ ctx.is_stub = false
        ∨ ctx.is_package_init_file = false := by
      rw [visitOptExprs_scope]; exact h
    show ((visit_blocks_marked ctx (visitOptExprs st guards)
        (inferMatchTags ctx.options guards) bodies).2).is_partial_stub_package = _
    rw [visit_blocks_marked_stub_pres ctx _ (inferMatchTags ctx.options guards) bodies h1,
      visitOptExprs_stub]
  | st, .funcDef l el name body, h => by
    have hb := visit_block_mark_stub_pres ctx false
      { st with is_global_scope := false } body (Or.inl rfl)
    have hcond : (st.is_global_scope && ctx.is_stub && (name == "__getattr__")
        && ctx.is_package_init_file) = false := by
      rcases h with h | h | h <;> simp [h]
    show (if st.is_global_scope && ctx.is_stub && (name == "__getattr__")
          && ctx.is_package_init_file then _ else _ : VisState).is_partial_stub_package = _
    rw [hcond]
    simpa using hb
  | st, .classDef l el name body, h => by
    show ((visit_block_mark ctx false
        { st with is_global_scope := false } body).2).is_partial_stub_package = _
    rw [visit_block_mark_stub_pres ctx false { st with is_global_scope := false } body
      (Or.inl rfl)]

theorem visit_block_mark_stub_pres (ctx : Ctx) : ∀ (mark : Bool) (st : VisState) (b : Block),
    st.is_global_scope = false ∨ ctx.is_stub = false ∨ ctx.is_package_init_file = false →
    ((visit_block_mark ctx mark st b).2).is_partial_stub_package = st.is_partial_stub_package
  | mark, st, .mk l el unreach body, h => by
    show ((if unreach || mark then _ else _ : Block × VisState).2).is_partial_stub_package = _
    split
    · cases el <;> rfl
    · show ((visit_stmts ctx st body).2).is_partial_stub_package = _
      rw [visit_stmts_stub_pres ctx st body h]

theorem visit_stmts_stub_pres (ctx : Ctx) : ∀ (st : VisState) (ss : List Stmt),
    st.is_global_scope = false ∨ ctx.is_stub = false ∨ ctx.is_package_init_file = false →
    ((visit_stmts ctx st ss).2).is_partial_stub_package = st.is_partial_stub_package
  | st, [], _ => rfl
  | st, s :: ss, h => by
    have h1 : ((visit_stmt ctx st s).2).is_global_scope = false ∨ ctx.is_stub = false
        ∨ ctx.is_package_init_file = false := by
      rw [visit_stmt_scope]; exact h
    show ((visit_stmts ctx (visit_stmt ctx st s).2 ss).2).is_partial_stub_package = _
    rw [visit_stmts_stub_pres ctx _ ss h1, visit_stmt_stub_pres ctx st s h]

theorem visit_blocks_marked_stub_pres (ctx : Ctx) :
    ∀ (st : VisState) (marks : List Bool) (bs : List Block),
    st.is_global_scope = false ∨ ctx.is_stub = false ∨ ctx.is_package_init_file = false →
    ((visit_blocks_marked ctx st marks bs).2).is_partial_stub_package
      = st.is_partial_stub_package
  | st, marks, [], _ => rfl
  | st, marks, b :: bs, h => by
    have h1 : ((visit_block_mark ctx (marks.headD false) st b).2).is_global_scope = false
        ∨ ctx.is_stub = false ∨ ctx.is_package_init_file = false := by
      rw [visit_block_mark_scope]; exact h
    show ((visit_blocks_marked ctx (visit_block_mark ctx (marks.headD false) st b).2
        marks.tail bs).2).is_partial_stub_package = _
    rw [visit_blocks_marked_stub_pres ctx _ marks.tail bs h1,
      visit_block_mark_stub_pres ctx (marks.headD false) st b h]

end

mutual

theorem visit_stmt_trace_mono (ctx : Ctx) : ∀ (st : VisState) (s : Stmt) (i : Nat),
    i ∈ st.visitedExprs → i ∈ ((visit_stmt ctx st s).2).visitedExprs
  | st, .assertStmt l el cond, i, h => List.mem_cons_of_mem _ h
  | st, .assignmentStmt l el, i, h => h
  | st, .expressionStmt l el, i, h => h
  | st, .returnStmt l el, i, h => h
  | st, .importStmt l el t, i, h => h
  | st, .importFrom l el t, i, h => h
  | st, .importAll l el t, i, h => h
  | st, .ifStmt l el exprs bodies elseB, i, h => by
    have h1 := visitExprs_trace_mono exprs st i h
    have h2 := visit_blocks_marked_trace_mono ctx (visitExprs st exprs)
      (inferIfTags ctx.options exprs).1 bodies i h1
    cases elseB with
    | none => exact h2
    | some eb =>
      exact visit_block_mark_trace_mono ctx (inferIfTags ctx.options exprs).2 _ eb i h2
  | st, .forStmt l el body elseB, i, h => by
    have h1 := visit_block_mark_trace_mono ctx false st body i h
    cases elseB with
    | none => exact h1
    | some eb => exact visit_block_mark_trace_mono ctx false _ eb i h1
  | st, .matchStmt l el guards bodies, i, h => by
    have h1 := visitOptExprs_trace_mono guards st i h
    exact visit_blocks_marked_trace_mono ctx (visitOptExprs st guards)
      (inferMatchTags ctx.options guards) bodies i h1
  | st, .funcDef l el name body, i, h => by
    have h1 := visit_block_mark_trace_mono ctx false
      { st with is_global_scope := false } body i h
    show i ∈ (if st.is_global_scope && ctx.is_stub && (name == "__getattr__")
        && ctx.is_package_init_file then _ else _ : VisState).visitedExprs
    split <;> exact h1
  | st, .classDef l el name body, i, h =>
    visit_block_mark_trace_mono ctx false { st with is_global_scope := false } body i h

theorem visit_block_mark_trace_mono (ctx : Ctx) :
    ∀ (mark : Bool) (st : VisState) (b : Block) (i : Nat),
    i ∈ st.visitedExprs → i ∈ ((visit_block_mark ctx mark st b).2).visitedExprs
  | mark, st, .mk l el unreach body, i, h => by
    show i ∈ ((if unreach || mark then _ else _ : Block × VisState).2).visitedExprs
    split
    · cases el <;> exact h
    · exact visit_stmts_trace_mono ctx st body i h

theorem visit_stmts_trace_mono (ctx : Ctx) : ∀ (st : VisState) (ss : List Stmt) (i : Nat),
    i ∈ st.visitedExprs → i ∈ ((visit_stmts ctx st ss).2).visitedExprs
  | st, [], i, h => h
  | st, s :: ss, i, h =>
    visit_stmts_trace_mono ctx (visit_stmt ctx st s).2 ss i
      (visit_stmt_trace_mono ctx st s i h)

theorem visit_blocks_marked_trace_mono (ctx : Ctx) :
    ∀ (st : VisState) (marks : List Bool) (bs : List Block) (i : Nat),
    i ∈ st.visitedExprs → i ∈ ((visit_blocks_marked ctx st marks bs).2).visitedExprs
  | st, marks, [], i, h => h
  | st, marks, b :: bs, i, h =>
    visit_blocks_marked_trace_mono ctx (visit_block_mark ctx (marks.headD false) st b).2
      marks.tail bs i
      (visit_block_mark_trace_mono ctx (marks.headD false) st b i h)

end

mutual

theorem visit_stmt_noTop (ctx : Ctx) : ∀ (st : VisState) (s : Stmt),
    st.is_global_scope = false → stmtNoTopImports s = true →
    stmtNoTopImports ((visit_stmt ctx st s).1) = true
  | st, .assertStmt l el cond, _, _ => rfl
  | st, .assignmentStmt l el, _, _ => rfl
  | st, .expressionStmt l el, _, _ => rfl
  | st, .returnStmt l el, _, _ => rfl
  | st, .importStmt l el t, hg, _ => by
    show (!st.is_global_scope) = true
    rw [hg]; rfl
  | st, .importFrom l el t, hg, _ => by
    show (!st.is_global_scope) = true
    rw [hg]; rfl
  | st, .importAll l el t, hg, _ => by
    show (!st.is_global_scope) = true
    rw [hg]; rfl
  | st, .ifStmt l el exprs bodies elseB, hg, hn => by
    have hg1 : (visitExprs st exprs).is_global_scope = false := by
      rw [visitExprs_scope]; exact hg
    cases elseB with
    | none =>
      have hn1 : blocksNoTopImports bodies = true := by
        simpa [stmtNoTopImports] using hn
      show stmtNoTopImports (.ifStmt l el exprs
        (visit_blocks_marked ctx (visitExprs st exprs)
          (inferIfTags ctx.options exprs).1 bodies).1 none) = true
      simp only [stmtNoTopImports, Bool.and_true]
      exact visit_blocks_marked_noTop ctx _ (inferIfTags ctx.options exprs).1 bodies hg1 hn1
    | some eb =>
      have hn1 : blocksNoTopImports bodies = true ∧ blockNoTopImports eb = true := by
        simpa [stmtNoTopImports, Bool.and_eq_true] using hn
      have hg2 : ((visit_blocks_marked ctx (visitExprs st exprs)
          (inferIfTags ctx.options exprs).1 bodies).2).is_global_scope = false := by
        rw [visit_blocks_marked_scope, visitExprs_scope]; exact hg
      show stmtNoTopImports (.ifStmt l el exprs
        (visit_blocks_marked ctx (visitExprs st exprs)
          (inferIfTags ctx.options exprs).1 bodies).1
        (some (visit_block_mark ctx (inferIfTags ctx.options exprs).2
          (visit_blocks_marked ctx (visitExprs st exprs)
            (inferIfTags ctx.options exprs).1 bodies).2 eb).1)) = true
      simp only [stmtNoTopImports, Bool.and_eq_true]
      exact ⟨visit_blocks_marked_noTop ctx _ (inferIfTags ctx.options exprs).1 bodies
          hg1 hn1.1,
        visit_block_mark_noTop ctx (inferIfTags ctx.options exprs).2 _ eb hg2 hn1.2⟩
  | st, .forStmt l el body elseB, hg, hn => by
    cases elseB with
    | none =>
      have hn1 : blockNoTopImports body = true := by
        simpa [stmtNoTopImports] using hn
      show stmtNoTopImports (.forStmt l el (visit_block_mark ctx false st body).1 none) = true
      simp only [stmtNoTopImports, Bool.and_true]
      exact visit_block_mark_noTop ctx false st body hg hn1
    | some eb =>
      have hn1 : blockNoTopImports body = true ∧ blockNoTopImports eb = true := by
        simpa [stmtNoTopImports, Bool.and_eq_true] using hn
      have hg2 : ((visit_block_mark ctx false st body).2).is_global_scope = false := by
        rw [visit_block_mark_scope]; exact hg
      show stmtNoTopImports (.forStmt l el (visit_block_mark ctx false st body).1
        (some (visit_block_mark ctx false (visit_block_mark ctx false st body).2 eb).1)) = true
      simp only [stmtNoTopImports, Bool.and_eq_true]
      exact ⟨visit_block_mark_noTop ctx false st body hg hn1.1,
        visit_block_mark_noTop ctx false _ eb hg2 hn1.2⟩
  | st, .matchStmt l el guards bodies, hg, hn => by
    have hg1 : (visitOptExprs st guards).is_global_scope = false := by
      rw [visitOptExprs_scope]; exact hg
    have hn1 : blocksNoTopImports bodies = true := by
      simpa [stmtNoTopImports] using hn
    show stmtNoTopImports (.matchStmt l el guards
      (visit_blocks_marked ctx (visitOptExprs st guards)
        (inferMatchTags ctx.options guards) bodies).1) = true
    simp only [stmtNoTopImports]
    exact visit_blocks_marked_noTop ctx _ (inferMatchTags ctx.options guards) bodies hg1 hn1
  | st, .funcDef l el name body, hg, hn => by
    have hn1 : blockNoTopImports body = true := by
      simpa [stmtNoTopImports] using hn
    show stmtNoTopImports (.funcDef l el name
      (visit_block_mark ctx false { st with is_global_scope := false } body).1) = true
    simp only [stmtNoTopImports]
    exact visit_block_mark_noTop ctx false { st with is_global_scope := false } body rfl hn1
  | st, .classDef l el name body, hg, hn => by
    have hn1 : blockNoTopImports body = true := by
      simpa [stmtNoTopImports] using hn
    show stmtNoTopImports (.classDef l el name
      (visit_block_mark ctx false { st with is_global_scope := false } body).1) = true
    simp only [stmtNoTopImports]
    exact visit_block_mark_noTop ctx false { st with is_global_scope := false } body rfl hn1

theorem visit_block_mark_noTop (ctx : Ctx) : ∀ (mark : Bool) (st : VisState) (b : Block),
    st.is_global_scope = false → blockNoTopImports b = true →
    blockNoTopImports ((visit_block_mark ctx mark st b).1) = true
  | mark, st, .mk l el unreach body, hg, hn => by
    show blockNoTopImports ((if unreach || mark then _ else _ : Block × VisState).1) = true
    split
    · cases el <;> exact hn
    · show blockNoTopImports (.mk l el false (visit_stmts ctx st body).1) = true
      show stmtsNoTopImports (visit_stmts ctx st body).1 = true
      exact visit_stmts_noTop ctx st body hg hn

theorem visit_stmts_noTop (ctx : Ctx) : ∀ (st : VisState) (ss : List Stmt),
    st.is_global_scope = false → stmtsNoTopImports ss = true →
    stmtsNoTopImports ((visit_stmts ctx st ss).1) = true
  | st, [], _, _ => rfl
  | st, s :: ss, hg, hn => by
    have hn1 : stmtNoTopImports s = true ∧ stmtsNoTopImports ss = true := by
      simpa [stmtsNoTopImports, Bool.and_eq_true] using hn
    have hg1 : ((visit_stmt ctx st s).2).is_global_scope = false := by
      rw [visit_stmt_scope]; exact hg
    show stmtsNoTopImports ((visit_stmt ctx st s).1 :: (visit_stmts ctx _ ss).1) = true
    simp only [stmtsNoTopImports, Bool.and_eq_true]
    exact ⟨visit_stmt_noTop ctx st s hg hn1.1,
      visit_stmts_noTop ctx (visit_stmt ctx st s).2 ss hg1 hn1.2⟩

theorem visit_blocks_marked_noTop (ctx : Ctx) :
    ∀ (st : VisState) (marks : List Bool) (bs : List Block),
    st.is_global_scope = false → blocksNoTopImports bs = true →
    blocksNoTopImports ((visit_blocks_marked ctx st marks bs).1) = true
  | st, marks, [], _, _ => rfl
  | st, marks, b :: bs, hg, hn => by
    have hn1 : blockNoTopImports b = true ∧ blocksNoTopImports bs = true := by
      simpa [blocksNoTopImports, Bool.and_eq_true] using hn
    have hg1 : ((visit_block_mark ctx (marks.headD false) st b).2).is_global_scope
        = false := by
      rw [visit_block_mark_scope]; exact hg
    show blocksNoTopImports ((visit_block_mark ctx (marks.headD false) st b).1
      :: (visit_blocks_marked ctx _ marks.tail bs).1) = true
    simp only [blocksNoTopImports, Bool.and_eq_true]
    exact ⟨visit_block_mark_noTop ctx (marks.headD false) st b hg hn1.1,
      visit_blocks_marked_noTop ctx _ marks.tail bs hg1 hn1.2⟩

end

mutual

theorem visit_stmt_skipped (ctx : Ctx) : ∀ (st : VisState) (s : Stmt),
    ((visit_stmt ctx st s).2).skipped_lines
      = st.skipped_lines ∪ stmtSpans ctx.options s
  | st, .assertStmt l el cond => by
    show st.skipped_lines = st.skipped_lines ∪ stmtSpans ctx.options (.assertStmt l el cond)
    simp [stmtSpans]
  | st, .assignmentStmt l el => by
    show st.skipped_lines = _; simp [stmtSpans]
  | st, .expressionStmt l el => by
    show st.skipped_lines = _; simp [stmtSpans]
  | st, .returnStmt l el => by
    show st.skipped_lines = _; simp [stmtSpans]
  | st, .importStmt l el t => by
    show st.skipped_lines = _; simp [stmtSpans]
  | st, .importFrom l el t => by
    show st.skipped_lines = _; simp [stmtSpans]
  | st, .importAll l el t => by
    show st.skipped_lines = _; simp [stmtSpans]
  | st, .ifStmt l el exprs bodies elseB => by
    cases elseB with
    | none =>
      show ((visit_blocks_marked ctx (visitExprs st exprs)
          (inferIfTags ctx.options exprs).1 bodies).2).skipped_lines = _
      rw [visit_blocks_marked_skipped ctx _ (inferIfTags ctx.options exprs).1 bodies,
        visitExprs_skipped]
      simp [stmtSpans]
    | some eb =>
      show ((visit_block_mark ctx (inferIfTags ctx.options exprs).2
          (visit_blocks_marked ctx (visitExprs st exprs)
            (inferIfTags ctx.options exprs).1 bodies).2 eb).2).skipped_lines = _
      rw [visit_block_mark_skipped ctx _ _ eb,
        visit_blocks_marked_skipped ctx _ (inferIfTags ctx.options exprs).1 bodies,
        visitExprs_skipped]
      simp [stmtSpans, Finset.union_assoc]
  | st, .forStmt l el body elseB => by
    cases elseB with
    | none =>
      show ((visit_block_mark ctx false st body).2).skipped_lines = _
      rw [visit_block_mark_skipped ctx false st body]
      simp [stmtSpans]
    | some eb =>
      show ((visit_block_mark ctx false
          (visit_block_mark ctx false st body).2 eb).2).skipped_lines = _
      rw [visit_block_mark_skipped ctx false _ eb,
        visit_block_mark_skipped ctx false st body]
      simp [stmtSpans, Finset.union_assoc]
  | st, .matchStmt l el guards bodies => by
    show ((visit_blocks_marked ctx (visitOptExprs st guards)
        (inferMatchTags ctx.options guards) bodies).2).skipped_lines = _
    rw [visit_blocks_marked_skipped ctx _ (inferMatchTags ctx.options guards) bodies,
      visitOptExprs_skipped]
    simp [stmtSpans]
  | st, .funcDef l el name body => by
    have hb := visit_block_mark_skipped ctx false
      { st with is_global_scope := false } body
    show (if st.is_global_scope && ctx.is_stub && (name == "__getattr__")
          && ctx.is_package_init_file then _ else _ : VisState).skipped_lines = _
    split <;> simpa [stmtSpans] using hb
  | st, .classDef l el name body => by
    show ((visit_block_mark ctx false
        { st with is_global_scope := false } body).2).skipped_lines = _
    rw [visit_block_mark_skipped ctx false { st with is_global_scope := false } body]
    simp [stmtSpans]

theorem visit_block_mark_skipped (ctx : Ctx) : ∀ (mark : Bool) (st : VisState) (b : Block),
    ((visit_block_mark ctx mark st b).2).skipped_lines
      = st.skipped_lines ∪ blockSpansM ctx.options mark b
  | mark, st, .mk l el unreach body => by
    show ((if unreach || mark then _ else _ : Block × VisState).2).skipped_lines = _
    by_cases h : (unreach || mark) = true
    · rw [if_pos h]
      cases el with
      | none => simp [blockSpansM, h]
      | some e => simp [blockSpansM, h]
    · rw [if_neg h]
      show ((visit_stmts ctx st body).2).skipped_lines = _
      rw [visit_stmts_skipped ctx st body]
      simp [blockSpansM, h]

theorem visit_stmts_skipped (ctx : Ctx) : ∀ (st : VisState) (ss : List Stmt),
    ((visit_stmts ctx st ss).2).skipped_lines
      = st.skipped_lines ∪ stmtsSpans ctx.options ss
  | st, [] => by
    show st.skipped_lines = _; simp [stmtsSpans]
  | st, s :: ss => by
    show ((visit_stmts ctx (visit_stmt ctx st s).2 ss).2).skipped_lines = _
    rw [visit_stmts_skipped ctx _ ss, visit_stmt_skipped ctx st s]
    simp [stmtsSpans, Finset.union_assoc]

theorem visit_blocks_marked_skipped (ctx : Ctx) :
    ∀ (st : VisState) (marks : List Bool) (bs : List Block),
    ((visit_blocks_marked ctx st marks bs).2).skipped_lines
      = st.skipped_lines ∪ blocksSpansM ctx.options marks bs
  | st, marks, [] => by
    show st.skipped_lines = _; simp [blocksSpansM]
  | st, marks, b :: bs => by
    show ((visit_blocks_marked ctx (visit_block_mark ctx (marks.headD false) st b).2
        marks.tail bs).2).skipped_lines = _
    rw [visit_blocks_marked_skipped ctx _ marks.tail bs,
      visit_block_mark_skipped ctx (marks.headD false) st b]
    simp [blocksSpansM, Finset.union_assoc]

end

theorem isFailingAssert_visit (ctx : Ctx) (st : VisState) (s : Stmt) :
    isFailingAssert ctx.options ((visit_stmt ctx st s).1) = isFailingAssert ctx.options s := by
  cases s with
  | ifStmt l el exprs bodies elseB => cases elseB <;> rfl
  | forStmt l el body elseB => cases elseB <;> rfl
  | _ => rfl

theorem visit_stmts_append (ctx : Ctx) (l1 l2 : List Stmt) : ∀ st : VisState,
    visit_stmts ctx st (l1 ++ l2)
      = ((visit_stmts ctx st l1).1 ++ (visit_stmts ctx (visit_stmts ctx st l1).2 l2).1,
         (visit_stmts ctx (visit_stmts ctx st l1).2 l2).2) := by
  induction l1 with
  | nil => intro st; rfl
  | cons s l1 ih =>
    intro st
    show ((visit_stmt ctx st s).1 :: (visit_stmts ctx (visit_stmt ctx st s).2 (l1 ++ l2)).1,
      (visit_stmts ctx (visit_stmt ctx st s).2 (l1 ++ l2)).2) = _
    rw [ih]
    rfl

theorem processDefs_cons_nofail (ctx : Ctx) (st : VisState) (d : Stmt) (rest : List Stmt)
    (h : isFailingAssert ctx.options d = false) :
    processDefs ctx st (d :: rest)
      = ((visit_stmt ctx st d).1 :: (processDefs ctx (visit_stmt ctx st d).2 rest).1,
         (processDefs ctx (visit_stmt ctx st d).2 rest).2) := by
  have h' : isFailingAssert ctx.options ((visit_stmt ctx st d).1) = false := by
    rw [isFailingAssert_visit]; exact h
  show (if isFailingAssert ctx.options ((visit_stmt ctx st d).1) = true then _ else _) = _
  rw [h']
  simp

theorem processDefs_visit_pre (ctx : Ctx) (pre : List Stmt) : ∀ (rest : List Stmt) (st : VisState),
    (∀ s ∈ pre, isFailingAssert ctx.options s = false) →
    processDefs ctx st (pre ++ rest)
      = ((visit_stmts ctx st pre).1 ++ (processDefs ctx (visit_stmts ctx st pre).2 rest).1,
         (processDefs ctx (visit_stmts ctx st pre).2 rest).2) := by
  induction pre with
  | nil => intro rest st _; rfl
  | cons d pre ih =>
    intro rest st h
    have hd : isFailingAssert ctx.options d = false := h d (List.mem_cons_self _ _)
    rw [List.cons_append, processDefs_cons_nofail ctx st d (pre ++ rest) hd,
      ih rest (visit_stmt ctx st d).2 (fun s hs => h s (List.mem_cons_of_mem _ hs))]
    rfl

theorem processDefs_failing_last (ctx : Ctx) (st : VisState) (a : Stmt)
    (ha : isFailingAssert ctx.options a = true) :
    processDefs ctx st [a] = ([(visit_stmt ctx st a).1], (visit_stmt ctx st a).2) := by
  have h' : isFailingAssert ctx.options ((visit_stmt ctx st a).1) = true := by
    rw [isFailingAssert_visit]; exact ha
  show (if isFailingAssert ctx.options ((visit_stmt ctx st a).1) = true then _ else _) = _
  rw [h']
  simp

theorem processDefs_failing_head (ctx : Ctx) (st : VisState) (a next : Stmt)
    (more : List Stmt) (ha : isFailingAssert ctx.options a = true) :
    processDefs ctx st (a :: next :: more)
      = ([(visit_stmt ctx st a).1],
         match stmtEndLine (List.getLastD more next) with
         | some e =>
           { (visit_stmt ctx st a).2 with
             skipped_lines :=
               ((visit_stmt ctx st a).2).skipped_lines
                 ∪ Finset.Ico (stmtLine next) (e + 1) }
         | none => (visit_stmt ctx st a).2) := by
  have h' : isFailingAssert ctx.options ((visit_stmt ctx st a).1) = true := by
    rw [isFailingAssert_visit]; exact ha
  show (if isFailingAssert ctx.options ((visit_stmt ctx st a).1) = true then _ else _) = _
  rw [h']
  simp
  cases stmtEndLine (more.getLast?.getD next) <;> rfl

theorem processDefs_skipped (ctx : Ctx) : ∀ (defs : List Stmt) (st : VisState),
    ((processDefs ctx st defs).2).skipped_lines
      = st.skipped_lines ∪ defsSpans ctx.options defs := by
  intro defs
  induction defs with
  | nil => intro st; show st.skipped_lines = _; simp [defsSpans]
  | cons d rest ih =>
    intro st
    by_cases hf : isFailingAssert ctx.options d = true
    · cases rest with
      | nil =>
        rw [processDefs_failing_last ctx st d hf, visit_stmt_skipped ctx st d]
        simp [defsSpans, hf]
      | cons next more =>
        rw [processDefs_failing_head ctx st d next more hf]
        cases he : stmtEndLine (List.getLastD more next) with
        | none =>
          rw [List.getLastD_eq_getLast?] at he
          show ((visit_stmt ctx st d).2).skipped_lines = _
          rw [visit_stmt_skipped ctx st d]
          simp [defsSpans, hf, he]
        | some e =>
          rw [List.getLastD_eq_getLast?] at he
          show ((visit_stmt ctx st d).2).skipped_lines
            ∪ Finset.Ico (stmtLine next) (e + 1) = _
          rw [visit_stmt_skipped ctx st d]
          simp [defsSpans, hf, he, Finset.union_assoc]
    · have hf' : isFailingAssert ctx.options d = false := by
        simpa using hf
      rw [processDefs_cons_nofail ctx st d rest hf']
      show ((processDefs ctx (visit_stmt ctx st d).2 rest).2).skipped_lines = _
      rw [ih (visit_stmt ctx st d).2, visit_stmt_skipped ctx st d]
      simp [defsSpans, hf', Finset.union_assoc]

theorem visit_block_mark_fst (ctx : Ctx) (mark : Bool) (st : VisState)
    (l : Nat) (el : Option Nat) (unreach : Bool) (body : List Stmt) :
    (visit_block_mark ctx mark st (.mk l el unreach body)).1
      = .mk l el (unreach || mark)
          (if (unreach || mark) = true then body else (visit_stmts ctx st body).1) := by
  show (if unreach || mark then _ else _ : Block × VisState).1 = _
  by_cases h : (unreach || mark) = true
  · rw [if_pos h, if_pos h]
    cases el <;> simp [h]
  · rw [if_neg h, if_neg h]
    have h' : (unreach || mark) = false := by simpa using h
    rw [h']

theorem visit_stmts_length (ctx : Ctx) (ss : List Stmt) : ∀ st : VisState,
    ((visit_stmts ctx st ss).1).length = ss.length := by
  induction ss with
  | nil => intro st; rfl
  | cons s ss ih =>
    intro st
    show ((visit_stmt ctx st s).1 :: (visit_stmts ctx _ ss).1).length = _
    simp [ih]

theorem visit_blocks_marked_length (ctx : Ctx) (bs : List Block) :
    ∀ (st : VisState) (marks : List Bool),
    ((visit_blocks_marked ctx st marks bs).1).length = bs.length := by
  induction bs with
  | nil => intro st marks; rfl
  | cons b bs ih =>
    intro st marks
    show ((visit_block_mark ctx (marks.headD false) st b).1
      :: (visit_blocks_marked ctx _ marks.tail bs).1).length = _
    simp [ih]

theorem headD_eq_getD (marks : List Bool) : marks.headD false = marks.getD 0 false := by
  cases marks <;> rfl

theorem tail_getD (marks : List Bool) (i : Nat) :
    marks.tail.getD i false = marks.getD (i + 1) false := by
  cases marks <;> rfl

theorem visit_blocks_marked_getD (ctx : Ctx) (bs : List Block) :
    ∀ (marks : List Bool) (st : VisState) (i : Nat) (bdef : Block), i < bs.length →
    ∃ st' : VisState,
      ((visit_blocks_marked ctx st marks bs).1).getD i bdef
        = (visit_block_mark ctx (marks.getD i false) st' (bs.getD i bdef)).1 := by
  induction bs with
  | nil => intro marks st i bdef h; cases h
  | cons b bs ih =>
    intro marks st i bdef h
    cases i with
    | zero =>
      refine ⟨st, ?_⟩
      show (visit_block_mark ctx (marks.headD false) st b).1 = _
      rw [headD_eq_getD]
      rfl
    | succ i =>
      obtain ⟨st', hst'⟩ := ih marks.tail (visit_block_mark ctx (marks.headD false) st b).2
        i bdef (by simpa using h)
      refine ⟨st', ?_⟩
      show ((visit_blocks_marked ctx (visit_block_mark ctx (marks.headD false) st b).2
        marks.tail bs).1).getD i bdef = _
      rw [hst', tail_getD]
      rfl

/-- C2: A block whose unreachable tag is set when the walker visits it has
its line span added to the skipped-line set if and only if its end line is
available, and is not descended into (the result block is the block itself,
statements untouched, and no expression-visit happens); a block whose tag is
not set is descended into, each statement in order. -/
theorem visit_block_unreachable_behavior :
    ∀ (ctx : Ctx) (st : VisState) (b : Block),
    (b.is_unreachable = true →
      visit_block ctx st b
        = (b, { st with skipped_lines := st.skipped_lines ∪ blockSpan b }) ∧
      (∀ l : ℕ, l ∈ ((visit_block ctx st b).2).skipped_lines ↔
        (l ∈ st.skipped_lines ∨ ∃ e, b.endLine = some e ∧ b.line ≤ l ∧ l ≤ e))) ∧
    (b.is_unreachable = false →
      visit_block ctx st b
        = (.mk b.line b.endLine false (visit_stmts ctx st b.body).1,
           (visit_stmts ctx st b.body).2)) := by
  intro ctx st b
  obtain ⟨l, el, u, body⟩ := b
  constructor
  · intro hu
    have hu' : u = true := hu
    subst hu'
    have hpair : visit_block ctx st (.mk l el true body)
        = (.mk l el true body,
           { st with skipped_lines := st.skipped_lines ∪ blockSpan (.mk l el true body) }) := by
      cases el with
      | some e => rfl
      | none =>
        show (Block.mk l none true body, st) = _
        refine Prod.ext rfl ?_
        show st = _
        cases st
        simp [blockSpan, Block.endLine]
    refine ⟨hpair, ?_⟩
    intro ln
    rw [hpair]
    show ln ∈ st.skipped_lines ∪ blockSpan (.mk l el true body) ↔ _
    cases el with
    | some e =>
      show ln ∈ st.skipped_lines ∪ Finset.Ico l (e + 1) ↔ _
      simp [Finset.mem_union, Finset.mem_Ico, Nat.lt_succ_iff, Block.endLine, Block.line]
    | none =>
      show ln ∈ st.skipped_lines ∪ ∅ ↔ _
      simp [Block.endLine]
  · intro hu
    have hu' : u = false := hu
    subst hu'
    rfl

/-- C9: The skipped-line set only grows during the pass, and after the
pass it is exactly the union of the spans recorded at blocks that were
visited with the unreachable tag set (the ghost recomputation `stmtSpans` /
`defsSpans` mirrors the traversal) together with the top-level truncation
span. -/
theorem skipped_lines_growth_and_containment :
    (∀ (ctx : Ctx) (st : VisState) (s : Stmt),
      st.skipped_lines ⊆ ((visit_stmt ctx st s).2).skipped_lines) ∧
    (∀ (ctx : Ctx) (st : VisState) (s : Stmt),
      ((visit_stmt ctx st s).2).skipped_lines
        = st.skipped_lines ∪ stmtSpans ctx.options s) ∧
    (∀ (self : Visitor) (file : MypyFile) (fnam mod_id : String) (options : Options),
      ((visit_file self file fnam mod_id options).2).skipped_lines
        = defsSpans options file.defs) := by
  refine ⟨?_, ?_, ?_⟩
  · intro ctx st s
    rw [visit_stmt_skipped ctx st s]
    exact Finset.subset_union_left
  · intro ctx st s
    exact visit_stmt_skipped ctx st s
  · intro self file fnam mod_id options
    show ((processDefs _ _ file.defs).2).skipped_lines = _
    rw [processDefs_skipped]
    simp

/-- C10: the entry point `visit_file` overwrites every per-module visitor field before
traversal, so its output does not depend on the visitor's prior state: two
calls with equal module trees and equal options agree, in particular a call
made after any earlier `visit_file` call agrees with a call on a fresh
visitor. -/
theorem visit_file_state_reset_deterministic :
    (∀ (v1 v2 : Visitor) (file : MypyFile) (fnam mod_id : String) (options : Options),
      visit_file v1 file fnam mod_id options = visit_file v2 file fnam mod_id options) ∧
    (∀ (v : Visitor) (file1 : MypyFile) (fnam1 mod_id1 : String) (options1 : Options)
       (file : MypyFile) (fnam mod_id : String) (options : Options),
      visit_file ((visit_file v file1 fnam1 mod_id1 options1).1) file fnam mod_id options
        = visit_file v file fnam mod_id options) :=
  ⟨fun _ _ _ _ _ _ => rfl, fun _ _ _ _ _ _ _ _ _ => rfl⟩

theorem processDefs_stub_pres (ctx : Ctx)
    (h : ctx.is_stub = false ∨ ctx.is_package_init_file = false) :
    ∀ (defs : List Stmt) (st : VisState),
    ((processDefs ctx st defs).2).is_partial_stub_package = st.is_partial_stub_package := by
  intro defs
  induction defs with
  | nil => intro st; rfl
  | cons d rest ih =>
    intro st
    have hd := visit_stmt_stub_pres ctx st d (Or.inr h)
    by_cases hf : isFailingAssert ctx.options d = true
    · cases rest with
      | nil => rw [processDefs_failing_last ctx st d hf]; exact hd
      | cons next more =>
        rw [processDefs_failing_head ctx st d next more hf]
        cases stmtEndLine (List.getLastD more next) with
        | some e => exact hd
        | none => exact hd
    · have hf' : isFailingAssert ctx.options d = false := by simpa using hf
      rw [processDefs_cons_nofail ctx st d rest hf']
      show ((processDefs ctx (visit_stmt ctx st d).2 rest).2).is_partial_stub_package = _
      rw [ih (visit_stmt ctx st d).2]
      exact hd

/-- C4: Visiting a function definition sets the module's
partial-stub-package flag exactly when it was already set or all four
trigger conditions hold at the point of definition (module scope, stub
module, name `__getattr__`, package initializer); moreover, when the module
is not a stub or not a package initializer, no statement visit and no whole
pass changes the flag at all. -/
theorem stub_package_flag_conditions :
    (∀ (ctx : Ctx) (st : VisState) (l : Nat) (el : Option Nat) (name : String) (body : Block),
      ((visit_stmt ctx st (.funcDef l el name body)).2).is_partial_stub_package
        = (st.is_partial_stub_package ||
           (st.is_global_scope && ctx.is_stub && (name == "__getattr__")
             && ctx.is_package_init_file))) ∧
    (∀ (ctx : Ctx) (st : VisState) (s : Stmt), ctx.is_stub = false →
      ((visit_stmt ctx st s).2).is_partial_stub_package = st.is_partial_stub_package) ∧
    (∀ (ctx : Ctx) (st : VisState) (s : Stmt), ctx.is_package_init_file = false →
      ((visit_stmt ctx st s).2).is_partial_stub_package = st.is_partial_stub_package) ∧
    (∀ (v : Visitor) (file : MypyFile) (fnam mod_id : String) (options : Options),
      file.is_stub = false ∨ file.is_package_init_file = false →
      ((visit_file v file fnam mod_id options).2).is_partial_stub_package
        = file.is_partial_stub_package) := by
  refine ⟨?_, ?_, ?_, ?_⟩
  · intro ctx st l el name body
    have hb := visit_block_mark_stub_pres ctx false
      { st with is_global_scope := false } body (Or.inl rfl)
    by_cases hc : (st.is_global_scope && ctx.is_stub && (name == "__getattr__")
        && ctx.is_package_init_file) = true
    · show (if st.is_global_scope && ctx.is_stub && (name == "__getattr__")
          && ctx.is_package_init_file then _ else _ : VisState).is_partial_stub_package = _
      rw [if_pos hc, hc, Bool.or_true]
    · have hc' : (st.is_global_scope && ctx.is_stub && (name == "__getattr__")
          && ctx.is_package_init_file) = false := by simpa using hc
      show (if st.is_global_scope && ctx.is_stub && (name == "__getattr__")
          && ctx.is_package_init_file then _ else _ : VisState).is_partial_stub_package = _
      rw [if_neg hc, hc', Bool.or_false]
      exact hb
  · intro ctx st s h
    exact visit_stmt_stub_pres ctx st s (Or.inr (Or.inl h))
  · intro ctx st s h
    exact visit_stmt_stub_pres ctx st s (Or.inr (Or.inr h))
  · intro v file fnam mod_id options h
    show ((processDefs
        { options := options, is_stub := file.is_stub,
          is_package_init_file := file.is_package_init_file }
        _ file.defs).2).is_partial_stub_package = _
    rw [processDefs_stub_pres _ h file.defs]

theorem stub_package_flag_conditions_witness :
    ((visit_stmt ctx0 st0 (.funcDef 1 (some 2) "__getattr__"
        (.mk 2 (some 2) false []))).2).is_partial_stub_package = true ∧
    ((visit_stmt { ctx0 with is_stub := false } st0 (.funcDef 1 (some 2) "__getattr__"
        (.mk 2 (some 2) false []))).2).is_partial_stub_package = false ∧
    ((visit_stmt { ctx0 with is_package_init_file := false } st0
        (.funcDef 1 (some 2) "__getattr__"
        (.mk 2 (some 2) false []))).2).is_partial_stub_package = false ∧
    ((visit_stmt ctx0 { st0 with is_global_scope := false }
        (.funcDef 1 (some 2) "__getattr__"
        (.mk 2 (some 2) false []))).2).is_partial_stub_package = false ∧
    ((visit_stmt ctx0 st0 (.funcDef 1 (some 2) "getattr"
        (.mk 2 (some 2) false []))).2).is_partial_stub_package = false := by
  refine ⟨?_, ?_, ?_, ?_, ?_⟩
  · rw [stub_package_flag_conditions.1 ctx0 st0 1 (some 2) "__getattr__"
      (.mk 2 (some 2) false [])]
    rfl
  · rw [stub_package_flag_conditions.2.1 { ctx0 with is_stub := false } st0
      (.funcDef 1 (some 2) "__getattr__" (.mk 2 (some 2) false [])) rfl]
    rfl
  · rw [stub_package_flag_conditions.2.2.1 { ctx0 with is_package_init_file := false } st0
      (.funcDef 1 (some 2) "__getattr__" (.mk 2 (some 2) false [])) rfl]
    rfl
  · rw [stub_package_flag_conditions.1 ctx0 { st0 with is_global_scope := false }
      1 (some 2) "__getattr__" (.mk 2 (some 2) false [])]
    rfl
  · rw [stub_package_flag_conditions.1 ctx0 st0 1 (some 2) "getattr"
      (.mk 2 (some 2) false [])]
    rfl

/-- C5: Import-like statements are tagged with the current scope flag:
written at module level (scope flag true) the tag becomes true; every
statement visit restores the scope flag to its incoming value (so exiting a
nested function restores the enclosing scope's value, not unconditionally
module scope); and a function or class body — visited with the flag cleared
— never produces a true top-level tag on any import nested anywhere inside
it, at any depth. -/
theorem import_top_level_tagging :
    (∀ (ctx : Ctx) (st : VisState) (l : Nat) (el : Option Nat) (t : Bool),
      (visit_stmt ctx st (.importStmt l el t)).1 = .importStmt l el st.is_global_scope) ∧
    (∀ (ctx : Ctx) (st : VisState) (l : Nat) (el : Option Nat) (t : Bool),
      (visit_stmt ctx st (.importFrom l el t)).1 = .importFrom l el st.is_global_scope) ∧
    (∀ (ctx : Ctx) (st : VisState) (l : Nat) (el : Option Nat) (t : Bool),
      (visit_stmt ctx st (.importAll l el t)).1 = .importAll l el st.is_global_scope) ∧
    (∀ (ctx : Ctx) (st : VisState) (s : Stmt),
      ((visit_stmt ctx st s).2).is_global_scope = st.is_global_scope) ∧
    (∀ (ctx : Ctx) (st : VisState) (l : Nat) (el : Option Nat) (name : String) (body : Block),
      blockNoTopImports body = true →
      stmtNoTopImports ((visit_stmt ctx st (.funcDef l el name body)).1) = true) ∧
    (∀ (ctx : Ctx) (st : VisState) (l : Nat) (el : Option Nat) (name : String) (body : Block),
      blockNoTopImports body = true →
      stmtNoTopImports ((visit_stmt ctx st (.classDef l el name body)).1) = true) := by
  refine ⟨fun _ _ _ _ _ => rfl, fun _ _ _ _ _ => rfl, fun _ _ _ _ _ => rfl, ?_, ?_, ?_⟩
  · intro ctx st s
    exact visit_stmt_scope ctx st s
  · intro ctx st l el name body h
    show blockNoTopImports ((visit_block_mark ctx false
      { st with is_global_scope := false } body).1) = true
    exact visit_block_mark_noTop ctx false { st with is_global_scope := false } body rfl h
  · intro ctx st l el name body h
    show blockNoTopImports ((visit_block_mark ctx false
      { st with is_global_scope := false } body).1) = true
    exact visit_block_mark_noTop ctx false { st with is_global_scope := false } body rfl h

theorem import_top_level_tagging_witness :
    (visit_stmt ctx0 st0 (.importStmt 1 (some 1) false)).1 = .importStmt 1 (some 1) true ∧
    stmtNoTopImports ((visit_stmt ctx0 st0 (.funcDef 1 (some 4) "f"
      (.mk 2 (some 4) false
        [.importStmt 2 (some 2) false,
         .funcDef 3 (some 4) "g" (.mk 4 (some 4) false
           [.importFrom 4 (some 4) false])]))).1) = true := by
  constructor
  · rw [import_top_level_tagging.1 ctx0 st0 1 (some 1) false]
    rfl
  · exact import_top_level_tagging.2.2.2.2.1 ctx0 st0 1 (some 4) "f"
      (.mk 2 (some 4) false
        [.importStmt 2 (some 2) false,
         .funcDef 3 (some 4) "g" (.mk 4 (some 4) false
           [.importFrom 4 (some 4) false])]) rfl

theorem visit_block_unreachable_behavior_witness :
    visit_block ctx0 st0 (.mk 4 (some 6) true [.importStmt 5 (some 5) false])
      = (.mk 4 (some 6) true [.importStmt 5 (some 5) false],
         { st0 with
           skipped_lines := st0.skipped_lines
             ∪ blockSpan (.mk 4 (some 6) true [.importStmt 5 (some 5) false]) }) ∧
    (5 : ℕ) ∈ ((visit_block ctx0 st0
      (.mk 4 (some 6) true [.importStmt 5 (some 5) false])).2).skipped_lines ∧
    visit_block ctx0 st0 (.mk 4 (some 6) false [.importStmt 5 (some 5) false])
      = (.mk 4 (some 6) false (visit_stmts ctx0 st0 [.importStmt 5 (some 5) false]).1,
         (visit_stmts ctx0 st0 [.importStmt 5 (some 5) false]).2) := by
  have h1 := visit_block_unreachable_behavior ctx0 st0
    (.mk 4 (some 6) true [.importStmt 5 (some 5) false])
  have h2 := visit_block_unreachable_behavior ctx0 st0
    (.mk 4 (some 6) false [.importStmt 5 (some 5) false])
  exact ⟨(h1.1 rfl).1,
    ((h1.1 rfl).2 5).mpr (Or.inr ⟨6, rfl, by decide, by decide⟩),
    h2.2 rfl⟩

/-- C1: If the first always-failing assert of the top-level sequence is
followed by further statements, the pass leaves exactly the visited prefix
up to and including that assert, and the skipped-line set receives exactly
the span from the next statement's start line through the last statement's
end line — every line of that span is in the set — while nothing is added
when the last statement's end line is unavailable. -/
theorem truncation_preserves_prefix (ctx : Ctx) (st : VisState) (pre : List Stmt)
    (a nextS : Stmt) (more : List Stmt)
    (hpre : ∀ s ∈ pre, isFailingAssert ctx.options s = false)
    (ha : isFailingAssert ctx.options a = true) :
    (processDefs ctx st (pre ++ a :: nextS :: more)).1
      = (visit_stmts ctx st (pre ++ [a])).1 ∧
    ((processDefs ctx st (pre ++ a :: nextS :: more)).1).length = pre.length + 1 ∧
    (∀ e, stmtEndLine (List.getLastD more nextS) = some e →
      ((processDefs ctx st (pre ++ a :: nextS :: more)).2).skipped_lines
        = ((visit_stmts ctx st (pre ++ [a])).2).skipped_lines
            ∪ Finset.Ico (stmtLine nextS) (e + 1)) ∧
    (∀ e, stmtEndLine (List.getLastD more nextS) = some e →
      ∀ l : ℕ, stmtLine nextS ≤ l → l ≤ e →
        l ∈ ((processDefs ctx st (pre ++ a :: nextS :: more)).2).skipped_lines) ∧
    (stmtEndLine (List.getLastD more nextS) = none →
      ((processDefs ctx st (pre ++ a :: nextS :: more)).2).skipped_lines
        = ((visit_stmts ctx st (pre ++ [a])).2).skipped_lines) := by
  have hsplit := processDefs_visit_pre ctx pre (a :: nextS :: more) st hpre
  have hhead := processDefs_failing_head ctx (visit_stmts ctx st pre).2 a nextS more ha
  have happ := visit_stmts_append ctx pre [a] st
  have hskip : ∀ e, stmtEndLine (List.getLastD more nextS) = some e →
      ((processDefs ctx st (pre ++ a :: nextS :: more)).2).skipped_lines
        = ((visit_stmts ctx st (pre ++ [a])).2).skipped_lines
            ∪ Finset.Ico (stmtLine nextS) (e + 1) := by
    intro e he
    rw [hsplit, hhead, he, happ]
    rfl
  refine ⟨?_, ?_, hskip, ?_, ?_⟩
  · rw [hsplit, hhead, happ]
    rfl
  · rw [hsplit, hhead]
    simp [visit_stmts_length]
  · intro e he l h1 h2
    rw [hskip e he]
    exact Finset.mem_union_right _ (Finset.mem_Ico.mpr ⟨h1, Nat.lt_succ_of_le h2⟩)
  · intro he
    rw [hsplit, hhead, he, happ]
    rfl

theorem truncation_preserves_prefix_witness :
    (processDefs ctx0 st0
      [.importStmt 1 (some 1) false,
       .assertStmt 2 (some 2) (.boolLit 0 false),
       .importStmt 3 (some 3) false,
       .importStmt 4 (some 5) false]).1
      = [.importStmt 1 (some 1) true, .assertStmt 2 (some 2) (.boolLit 0 false)] ∧
    ((processDefs ctx0 st0
      [.importStmt 1 (some 1) false,
       .assertStmt 2 (some 2) (.boolLit 0 false),
       .importStmt 3 (some 3) false,
       .importStmt 4 (some 5) false]).1).length = 2 ∧
    (4 : ℕ) ∈ ((processDefs ctx0 st0
      [.importStmt 1 (some 1) false,
       .assertStmt 2 (some 2) (.boolLit 0 false),
       .importStmt 3 (some 3) false,
       .importStmt 4 (some 5) false]).2).skipped_lines := by
  have h := truncation_preserves_prefix ctx0 st0 [.importStmt 1 (some 1) false]
    (.assertStmt 2 (some 2) (.boolLit 0 false)) (.importStmt 3 (some 3) false)
    [.importStmt 4 (some 5) false] (by decide) (by decide)
  exact ⟨h.1.trans rfl, h.2.1, h.2.2.2.1 5 rfl 4 (by decide) (by decide)⟩

/-- C7: When the first always-failing assert is the last top-level
statement, the pass behaves exactly like plain visiting: the sequence keeps
its length and the truncation step contributes nothing to the skipped-line
set. -/
theorem no_truncation_when_assert_last (ctx : Ctx) (st : VisState) (pre : List Stmt)
    (a : Stmt) (hpre : ∀ s ∈ pre, isFailingAssert ctx.options s = false)
    (ha : isFailingAssert ctx.options a = true) :
    processDefs ctx st (pre ++ [a]) = visit_stmts ctx st (pre ++ [a]) ∧
    ((processDefs ctx st (pre ++ [a])).1).length = pre.length + 1 := by
  have h1 := processDefs_visit_pre ctx pre [a] st hpre
  have h2 := processDefs_failing_last ctx (visit_stmts ctx st pre).2 a ha
  have happ := visit_stmts_append ctx pre [a] st
  constructor
  · rw [h1, h2, happ]
    rfl
  · rw [h1, h2]
    simp [visit_stmts_length]

theorem no_truncation_when_assert_last_witness :
    processDefs ctx0 st0
        [.importStmt 1 (some 1) false, .assertStmt 2 (some 2) (.boolLit 0 false)]
      = visit_stmts ctx0 st0
        [.importStmt 1 (some 1) false, .assertStmt 2 (some 2) (.boolLit 0 false)] ∧
    ((processDefs ctx0 st0
        [.importStmt 1 (some 1) false,
         .assertStmt 2 (some 2) (.boolLit 0 false)]).1).length = 2 := by
  exact no_truncation_when_assert_last ctx0 st0 [.importStmt 1 (some 1) false]
    (.assertStmt 2 (some 2) (.boolLit 0 false)) (by decide) (by decide)

/-- C8: Truncation triggers only on an always-failing assert written
directly in the top-level sequence: if no top-level statement is an
always-failing assert — regardless of failing asserts nested inside if
bodies, blocks, functions or classes among those statements — the loop is
plain visiting and removes nothing; and at the first top-level failing
assert the loop stops, keeping exactly the prefix up to the assert. -/
theorem truncation_only_top_level_first (ctx : Ctx) :
    (∀ (st : VisState) (defs : List Stmt),
      (∀ s ∈ defs, isFailingAssert ctx.options s = false) →
      processDefs ctx st defs = visit_stmts ctx st defs) ∧
    (∀ (st : VisState) (pre : List Stmt) (a : Stmt) (post : List Stmt),
      (∀ s ∈ pre, isFailingAssert ctx.options s = false) →
      isFailingAssert ctx.options a = true →
      ((processDefs ctx st (pre ++ a :: post)).1).length = pre.length + 1) := by
  constructor
  · intro st defs
    induction defs generalizing st with
    | nil => intro _; rfl
    | cons d rest ih =>
      intro h
      rw [processDefs_cons_nofail ctx st d rest (h d (List.mem_cons_self _ _)),
        ih (visit_stmt ctx st d).2 (fun s hs => h s (List.mem_cons_of_mem _ hs))]
      rfl
  · intro st pre a post hpre ha
    cases post with
    | nil =>
      rw [processDefs_visit_pre ctx pre [a] st hpre,
        processDefs_failing_last ctx _ a ha]
      simp [visit_stmts_length]
    | cons nextS more =>
      rw [processDefs_visit_pre ctx pre (a :: nextS :: more) st hpre,
        processDefs_failing_head ctx _ a nextS more ha]
      simp [visit_stmts_length]

theorem truncation_only_top_level_first_witness :
    processDefs ctx0 st0
        [.ifStmt 1 (some 3) [.otherExpr 9]
          [.mk 2 (some 3) false [.assertStmt 2 (some 2) (.boolLit 0 false)]] none,
         .importStmt 4 (some 4) false]
      = visit_stmts ctx0 st0
        [.ifStmt 1 (some 3) [.otherExpr 9]
          [.mk 2 (some 3) false [.assertStmt 2 (some 2) (.boolLit 0 false)]] none,
         .importStmt 4 (some 4) false] ∧
    ((processDefs ctx0 st0
        [.assertStmt 1 (some 1) (.boolLit 0 false),
         .assertStmt 2 (some 2) (.boolLit 1 false),
         .importStmt 3 (some 3) false]).1).length = 1 := by
  constructor
  · exact (truncation_only_top_level_first ctx0).1 st0 _ (by decide)
  · exact (truncation_only_top_level_first ctx0).2 st0 []
      (.assertStmt 1 (some 1) (.boolLit 0 false))
      [.assertStmt 2 (some 2) (.boolLit 1 false), .importStmt 3 (some 3) false]
      (by decide) (by decide)

/-- C6: At an if-construct the walker first has the Oracle tag each
arm's body (and the else block), then descends into every guard expression
— including guards of arms whose bodies were tagged dead — then into every
body block, with pruning left entirely to the block-level unreachable tag:
the result arm tags are exactly the old tag or-ed with the Oracle's mark,
a marked arm's statements are left untouched, the else block is visited
after the arm bodies with the Oracle's else mark, and an arm the Oracle
leaves untagged (undetermined guard) whose block is not already tagged is
fully traversed. -/
theorem if_stmt_oracle_protocol :
    (∀ (ctx : Ctx) (st : VisState) (l : Nat) (el : Option Nat) (exprs : List Expr)
        (bodies : List Block) (elseB : Option Block) (e : Expr), e ∈ exprs →
      exprId e ∈ ((visit_stmt ctx st (.ifStmt l el exprs bodies elseB)).2).visitedExprs) ∧
    (∀ (ctx : Ctx) (st : VisState) (l : Nat) (el : Option Nat) (exprs : List Expr)
        (bodies : List Block) (elseB : Option Block),
      (armBodies ((visit_stmt ctx st (.ifStmt l el exprs bodies elseB)).1)).length
        = bodies.length) ∧
    (∀ (ctx : Ctx) (st : VisState) (l : Nat) (el : Option Nat) (exprs : List Expr)
        (bodies : List Block) (elseB : Option Block) (i : Nat) (bdef : Block),
      i < bodies.length →
      ((armBodies ((visit_stmt ctx st
          (.ifStmt l el exprs bodies elseB)).1)).getD i bdef).is_unreachable
        = ((bodies.getD i bdef).is_unreachable
            || ((inferIfTags ctx.options exprs).1).getD i false)) ∧
    (∀ (ctx : Ctx) (st : VisState) (l : Nat) (el : Option Nat) (exprs : List Expr)
        (bodies : List Block) (elseB : Option Block) (i : Nat) (bdef : Block),
      i < bodies.length →
      ((bodies.getD i bdef).is_unreachable
          || ((inferIfTags ctx.options exprs).1).getD i false) = true →
      ((armBodies ((visit_stmt ctx st
          (.ifStmt l el exprs bodies elseB)).1)).getD i bdef).body
        = (bodies.getD i bdef).body) ∧
    (∀ (ctx : Ctx) (st : VisState) (l : Nat) (el : Option Nat) (exprs : List Expr)
        (bodies : List Block) (eb : Block),
      elseOf ((visit_stmt ctx st (.ifStmt l el exprs bodies (some eb))).1)
        = some ((visit_block_mark ctx (inferIfTags ctx.options exprs).2
            (visit_blocks_marked ctx (visitExprs st exprs)
              (inferIfTags ctx.options exprs).1 bodies).2 eb).1)) ∧
    (∀ (ctx : Ctx) (st : VisState) (l : Nat) (el : Option Nat) (e : Expr) (b : Block),
      inferCondValue ctx.options e = none → b.is_unreachable = false →
      visit_stmt ctx st (.ifStmt l el [e] [b] none)
        = (.ifStmt l el [e]
             [.mk b.line b.endLine false (visit_stmts ctx (visitExpr st e) b.body).1] none,
           (visit_stmts ctx (visitExpr st e) b.body).2)) := by
  refine ⟨?_, ?_, ?_, ?_, ?_, ?_⟩
  · intro ctx st l el exprs bodies elseB e he
    have h1 := visitExprs_trace_mem exprs st e he
    have h2 := visit_blocks_marked_trace_mono ctx (visitExprs st exprs)
      (inferIfTags ctx.options exprs).1 bodies (exprId e) h1
    cases elseB with
    | none => exact h2
    | some eb =>
      exact visit_block_mark_trace_mono ctx (inferIfTags ctx.options exprs).2 _ eb
        (exprId e) h2
  · intro ctx st l el exprs bodies elseB
    cases elseB with
    | none =>
      show ((visit_blocks_marked ctx (visitExprs st exprs)
        (inferIfTags ctx.options exprs).1 bodies).1).length = _
      exact visit_blocks_marked_length ctx bodies _ _
    | some eb =>
      show ((visit_blocks_marked ctx (visitExprs st exprs)
        (inferIfTags ctx.options exprs).1 bodies).1).length = _
      exact visit_blocks_marked_length ctx bodies _ _
  · intro ctx st l el exprs bodies elseB i bdef hi
    obtain ⟨st', hst'⟩ := visit_blocks_marked_getD ctx bodies
      (inferIfTags ctx.options exprs).1 (visitExprs st exprs) i bdef hi
    cases elseB with
    | none =>
      show (((visit_blocks_marked ctx (visitExprs st exprs)
        (inferIfTags ctx.options exprs).1 bodies).1).getD i bdef).is_unreachable = _
      rw [hst']
      cases hb : bodies.getD i bdef with
      | mk bl bel bu bb =>
        rw [visit_block_mark_fst]
        rfl
    | some eb =>
      show (((visit_blocks_marked ctx (visitExprs st exprs)
        (inferIfTags ctx.options exprs).1 bodies).1).getD i bdef).is_unreachable = _
      rw [hst']
      cases hb : bodies.getD i bdef with
      | mk bl bel bu bb =>
        rw [visit_block_mark_fst]
        rfl
  · intro ctx st l el exprs bodies elseB i bdef hi hm
    obtain ⟨st', hst'⟩ := visit_blocks_marked_getD ctx bodies
      (inferIfTags ctx.options exprs).1 (visitExprs st exprs) i bdef hi
    cases elseB with
    | none =>
      show (((visit_blocks_marked ctx (visitExprs st exprs)
        (inferIfTags ctx.options exprs).1 bodies).1).getD i bdef).body = _
      rw [hst']
      cases hb : bodies.getD i bdef with
      | mk bl bel bu bb =>
        rw [hb] at hm
        have hm2 : (bu || ((inferIfTags ctx.options exprs).1).getD i false) = true := hm
        rw [visit_block_mark_fst]
        show (if (bu || ((inferIfTags ctx.options exprs).1).getD i false) = true
          then bb else _ : List Stmt) = _
        rw [if_pos hm2]
        rfl
    | some eb =>
      show (((visit_blocks_marked ctx (visitExprs st exprs)
        (inferIfTags ctx.options exprs).1 bodies).1).getD i bdef).body = _
      rw [hst']
      cases hb : bodies.getD i bdef with
      | mk bl bel bu bb =>
        rw [hb] at hm
        have hm2 : (bu || ((inferIfTags ctx.options exprs).1).getD i false) = true := hm
        rw [visit_block_mark_fst]
        show (if (bu || ((inferIfTags ctx.options exprs).1).getD i false) = true
          then bb else _ : List Stmt) = _
        rw [if_pos hm2]
        rfl
  · intro ctx st l el exprs bodies eb
    rfl
  · intro ctx st l el e b hval hb
    have htags : inferIfTags ctx.options [e] = ([false], false) := by
      simp [inferIfTags, hval]
    cases b with
    | mk bl bel bu bb =>
      have hb' : bu = false := hb
      subst hb'
      show (Stmt.ifStmt l el [e]
          (visit_blocks_marked ctx (visitExprs st [e])
            (inferIfTags ctx.options [e]).1 [.mk bl bel false bb]).1 none,
        (visit_blocks_marked ctx (visitExprs st [e])
          (inferIfTags ctx.options [e]).1 [.mk bl bel false bb]).2) = _
      rw [htags]
      rfl

theorem if_stmt_oracle_protocol_witness :
    (7 : Nat) ∈ ((visit_stmt ctx0 st0 (.ifStmt 1 (some 3)
      [.platformEq 7 "win32", .otherExpr 8]
      [.mk 2 (some 2) false [.importStmt 2 (some 2) false],
       .mk 3 (some 3) false [.importStmt 3 (some 3) false]] none)).2).visitedExprs ∧
    (8 : Nat) ∈ ((visit_stmt ctx0 st0 (.ifStmt 1 (some 3)
      [.platformEq 7 "win32", .otherExpr 8]
      [.mk 2 (some 2) false [.importStmt 2 (some 2) false],
       .mk 3 (some 3) false [.importStmt 3 (some 3) false]] none)).2).visitedExprs ∧
    (armBodies ((visit_stmt ctx0 st0 (.ifStmt 1 (some 3)
      [.platformEq 7 "win32", .otherExpr 8]
      [.mk 2 (some 2) false [.importStmt 2 (some 2) false],
       .mk 3 (some 3) false [.importStmt 3 (some 3) false]] none)).1)).length = 2 ∧
    ((armBodies ((visit_stmt ctx0 st0 (.ifStmt 1 (some 3)
      [.platformEq 7 "win32", .otherExpr 8]
      [.mk 2 (some 2) false [.importStmt 2 (some 2) false],
       .mk 3 (some 3) false [.importStmt 3 (some 3) false]] none)).1)).getD 0
        (.mk 0 none false [])).is_unreachable = true ∧
    ((armBodies ((visit_stmt ctx0 st0 (.ifStmt 1 (some 3)
      [.platformEq 7 "win32", .otherExpr 8]
      [.mk 2 (some 2) false [.importStmt 2 (some 2) false],
       .mk 3 (some 3) false [.importStmt 3 (some 3) false]] none)).1)).getD 0
        (.mk 0 none false [])).body = [.importStmt 2 (some 2) false] ∧
    visit_stmt ctx0 st0 (.ifStmt 1 (some 2) [.otherExpr 8]
        [.mk 2 (some 2) false [.importStmt 2 (some 2) false]] none)
      = (.ifStmt 1 (some 2) [.otherExpr 8]
           [.mk 2 (some 2) false
             (visit_stmts ctx0 (visitExpr st0 (.otherExpr 8))
               [.importStmt 2 (some 2) false]).1] none,
         (visit_stmts ctx0 (visitExpr st0 (.otherExpr 8))
           [.importStmt 2 (some 2) false]).2) := by
  have h := if_stmt_oracle_protocol
  refine ⟨h.1 ctx0 st0 1 (some 3) _ _ none (.platformEq 7 "win32") (by decide),
    h.1 ctx0 st0 1 (some 3) _ _ none (.otherExpr 8) (by decide),
    h.2.1 ctx0 st0 1 (some 3) _ _ none,
    (h.2.2.1 ctx0 st0 1 (some 3) _ _ none 0 (.mk 0 none false []) (by decide)).trans rfl,
    (h.2.2.2.1 ctx0 st0 1 (some 3) _ _ none 0 (.mk 0 none false []) (by decide)
      (by decide)).trans rfl,
    h.2.2.2.2.2 ctx0 st0 1 (some 2) (.otherExpr 8)
      (.mk 2 (some 2) false [.importStmt 2 (some 2) false]) rfl rfl⟩

/-- C3 counterexample: In the scenario the claim describes, the pass
never writes the import's top-level tag: `visit_block` returns before
descending into the unreachable block, so the tag keeps its parse-time
value `false` — the claim's "top-level tag is set to true" is false here. -/
theorem import_in_dead_block_not_tagged_cex :
    topLevelTag ((((armBodies ((demoResult.defs).getD 0 demoIf)).getD 0
      winBlock).body).getD 0 xyzImport) ≠ true := by decide

/-- C3 amended: Target platform `"linux"`, top-level
`if sys.platform == "win32":` with an import in the body: the block is
marked unreachable and its lines enter the skipped-line set, but the import
is never visited, so its top-level tag retains its parse-time value
`false`. -/
theorem import_in_dead_block_amended :
    topLevelTag ((((armBodies ((demoResult.defs).getD 0 demoIf)).getD 0
      winBlock).body).getD 0 xyzImport) = false ∧
    ((armBodies ((demoResult.defs).getD 0 demoIf)).getD 0 winBlock).is_unreachable = true ∧
    (3 : ℕ) ∈ demoResult.skipped_lines ∧
    demoResult.defs
      = [.ifStmt 2 (some 3) [winGuard] [.mk 3 (some 3) true [xyzImport]] none] := by
  refine ⟨rfl, rfl, by decide, rfl⟩

end Mypy
